import Mathlib

/-!
Verification of the `ftplib` FTP client/server library against its
natural-language specification.

The Go sources are shallowly embedded: pure functions become Lean functions
on `List Char` / `String`, stateful server code becomes explicit state
passing, and code that can panic at runtime returns `Outcome.crash`.
External collaborators (the operating system's filesystem, listener
creation, the network peer's replies) are passed as explicit parameters,
matching the specification's §6 interface boundaries.
-/

namespace Ftplib

/-- Result of evaluating a piece of Go code that may panic at run time
(`crash`), return a Go error value (`err`), or succeed (`ok`). -/
inductive Outcome (α : Type) where
  | crash : Outcome α
  | err : String → Outcome α
  | ok : α → Outcome α
  deriving DecidableEq, Repr

/-- Model of `unicode.IsSpace` restricted to the ASCII whitespace characters
that occur in FTP listing lines and command lines. -/
def isSpaceChar (c : Char) : Bool :=
  c == ' ' || c == '\t' || c == '\n' || c == '\r' || c == '\x0b' || c == '\x0c'

/-- Accumulator core of `strings.Fields`; `cur` holds the current
in-progress field in reverse order. -/
def fieldsCore : List Char → List Char → List (List Char)
  | [], cur => if cur = [] then [] else [cur.reverse]
  | c :: rest, cur =>
    if isSpaceChar c then
      if cur = [] then fieldsCore rest []
      else cur.reverse :: fieldsCore rest []
    else fieldsCore rest (c :: cur)

/-- Model of Go `strings.Fields`: split around maximal runs of whitespace. -/
def goFields (s : List Char) : List (List Char) := fieldsCore s []

/-- Decimal digit characters, used to model Go's integer formatting. -/
def digitChar : Nat → Char
  | 0 => '0' | 1 => '1' | 2 => '2' | 3 => '3' | 4 => '4'
  | 5 => '5' | 6 => '6' | 7 => '7' | 8 => '8' | _ => '9'

/-- Numeric value of a decimal digit character. -/
def digitVal (c : Char) : Nat := c.toNat - 48

/-- Decimal value of a digit string (leftmost digit most significant). -/
def parseVal (s : List Char) : Nat := s.foldl (fun a c => a * 10 + digitVal c) 0

/-- Fuel-indexed core of `natChars`; the fuel only bounds the recursion
depth so that the definition reduces by iota rules (see `natChars_eq`). -/
def natCharsF : Nat → Nat → List Char
  | 0, _ => []
  | fuel + 1, n =>
    if n < 10 then [digitChar n]
    else natCharsF fuel (n / 10) ++ [digitChar (n % 10)]

/-- Model of Go decimal integer formatting (`strconv.Itoa` / `%d`) for
non-negative values. -/
def natChars (n : Nat) : List Char := natCharsF (n + 1) n

/-- Model of Go `strconv.ParseUint(s, 10, 0)` on a 64-bit platform: decimal
digits only, non-empty, value below `2 ^ 64`. -/
def parseUintL (s : List Char) : Option Nat :=
  if s ≠ [] ∧ s.all Char.isDigit ∧ parseVal s < 2 ^ 64 then some (parseVal s) else none

/-- Model of Go `strconv.Atoi`: optional sign, at least one digit, and the
value must fit in a 64-bit signed int. -/
def goAtoi (s : List Char) : Option Int :=
  match s with
  | '+' :: rest =>
    if rest ≠ [] ∧ rest.all Char.isDigit ∧ parseVal rest ≤ 2 ^ 63 - 1 then
      some (parseVal rest)
    else none
  | '-' :: rest =>
    if rest ≠ [] ∧ rest.all Char.isDigit ∧ parseVal rest ≤ 2 ^ 63 then
      some (-(parseVal rest : Int))
    else none
  | _ =>
    if s ≠ [] ∧ s.all Char.isDigit ∧ parseVal s ≤ 2 ^ 63 - 1 then
      some (parseVal s)
    else none

/-- Lower-case an ASCII letter (Go's time layouts match month names
case-insensitively). -/
def lowerChar (c : Char) : Char :=
  if 'A' ≤ c ∧ c ≤ 'Z' then Char.ofNat (c.toNat + 32) else c

/-- Abbreviated month names of Go's `time` package. -/
def monthAbbrev : Nat → List Char
  | 1 => "Jan".data | 2 => "Feb".data | 3 => "Mar".data | 4 => "Apr".data
  | 5 => "May".data | 6 => "Jun".data | 7 => "Jul".data | 8 => "Aug".data
  | 9 => "Sep".data | 10 => "Oct".data | 11 => "Nov".data | 12 => "Dec".data
  | _ => []

/-- The abbreviated month names of Go's `time` package, lower-cased. -/
def monthNames : List (List Char) :=
  [['j', 'a', 'n'], ['f', 'e', 'b'], ['m', 'a', 'r'], ['a', 'p', 'r'],
   ['m', 'a', 'y'], ['j', 'u', 'n'], ['j', 'u', 'l'], ['a', 'u', 'g'],
   ['s', 'e', 'p'], ['o', 'c', 't'], ['n', 'o', 'v'], ['d', 'e', 'c']]

/-- Positional lookup of `t` in `ns`, numbering from `i`. -/
def lookupIdx : List (List Char) → List Char → Nat → Option Nat
  | [], _, _ => none
  | n :: ns, t, i => if t = n then some i else lookupIdx ns t (i + 1)

/-- Case-insensitive lookup of an abbreviated month name, as Go `time.Parse`
performs for the `Jan` layout element. -/
def monthLookup (s : List Char) : Option Nat := lookupIdx monthNames (s.map lowerChar) 1

/-- Model of the two-digit-year layout element `06` of Go `time.Parse`:
values 69–99 map to 19xx and 00–68 to 20xx. -/
def year2Parse (s : List Char) : Option Nat :=
  match s with
  | [a, b] =>
    if a.isDigit ∧ b.isDigit then
      let v := digitVal a * 10 + digitVal b
      some (if 69 ≤ v then 1900 + v else 2000 + v)
    else none
  | _ => none

/-- Model of the day layout element `_2` of Go `time.Parse`: one or two
digits (the optional leading pad space never occurs here because the input
is always a whitespace-free field). -/
def dayParse (s : List Char) : Option Nat :=
  match s with
  | [a] => if a.isDigit then some (digitVal a) else none
  | [a, b] => if a.isDigit ∧ b.isDigit then some (digitVal a * 10 + digitVal b) else none
  | _ => none

/-- Model of the clock layout elements `15:04` of Go `time.Parse`: a one- or
two-digit hour, a colon, and exactly two minute digits. -/
def clockParse (s : List Char) : Option (Nat × Nat) :=
  match s with
  | [h, c, m1, m2] =>
    if c = ':' ∧ h.isDigit ∧ m1.isDigit ∧ m2.isDigit then
      some (digitVal h, digitVal m1 * 10 + digitVal m2)
    else none
  | [h1, h2, c, m1, m2] =>
    if c = ':' ∧ h1.isDigit ∧ h2.isDigit ∧ m1.isDigit ∧ m2.isDigit then
      some (digitVal h1 * 10 + digitVal h2, digitVal m1 * 10 + digitVal m2)
    else none
  | _ => none

/-- Gregorian leap-year rule, as used by Go's `time` package. -/
def isLeap (y : Nat) : Bool :=
  (y % 4 == 0 && y % 100 != 0) || y % 400 == 0

/-- Number of days in a month, as validated by Go `time.Parse`. -/
def daysInMonth (m y : Nat) : Nat :=
  match m with
  | 1 => 31 | 2 => if isLeap y then 29 else 28 | 3 => 31 | 4 => 30
  | 5 => 31 | 6 => 30 | 7 => 31 | 8 => 31
  | 9 => 30 | 10 => 31 | 11 => 30 | 12 => 31
  | _ => 0

/-- Wall-clock timestamp (the fields of a Go `time.Time` that the listing
codec can represent). -/
structure DateTime where
  year : Nat
  month : Nat
  day : Nat
  hour : Nat
  minute : Nat
  deriving DecidableEq, Repr

/-- Model of Go `time.Parse("_2 Jan 06 15:04 MST", d ++ " " ++ mon ++ " " ++
yy ++ " " ++ clock ++ " GMT")`.  The four components are whitespace-free
fields joined by single spaces, so parsing the assembled string is
equivalent to parsing the components; the literal `GMT` suffix always
matches the `MST` layout element.  Go validates the day against the length
of the month (including leap years), the hour against 0–23 and the minute
against 0–59. -/
def goTimeParse (dayS monS yearS clockS : List Char) : Option DateTime :=
  match dayParse dayS, monthLookup monS, year2Parse yearS, clockParse clockS with
  | some d, some m, some y, some (h, mi) =>
    if 1 ≤ d ∧ d ≤ daysInMonth m y ∧ h ≤ 23 ∧ mi ≤ 59 then
      some ⟨y, m, d, h, mi⟩
    else none
  | _, _, _, _ => none

/-- EntryType describes the different types of an Entry
(src/unnamed/part_000 lines 15–22). -/
inductive EntryType where
  | file
  | folder
  | link
  deriving DecidableEq, Repr

/-- A parsed directory-listing entry (src/unnamed/part_000 lines 39–44). -/
structure Entry where
  name : String
  type : EntryType
  size : Nat
  time : DateTime
  deriving DecidableEq, Repr

/-- Entry-type selector of `parseListLine`: first character of field 0. -/
def typeOfChar : Char → Option EntryType
  | '-' => some .file
  | 'd' => some .folder
  | 'l' => some .link
  | _ => none

/-- Model of Go `strings.Join` with a one-character separator. -/
def joinSep (sep : Char) : List (List Char) → List Char
  | [] => []
  | [w] => w
  | w :: ws => w ++ sep :: joinSep sep ws

/-- Model of Go `strings.Join(fields, " ")`. -/
def intercalateSpace (ws : List (List Char)) : List Char := joinSep ' ' ws

/-- Size step of `parseListLine`: only a file's field 4 is parsed as its
unsigned size; a parse failure fails the line. -/
def sizeStep (ty : EntryType) (f4 : List Char) : Outcome Nat :=
  match ty with
  | EntryType.file =>
    match parseUintL f4 with
    | none => .err "invalid size"
    | some n => .ok n
  | _ => .ok 0

/-- Date step of `parseListLine`.  Both `strconv.Itoa(thisYear)[2:4]` and
`fields[7][2:4]` are Go string slices that panic (`Outcome.crash`) when the
sliced string is shorter than four bytes. -/
def timeStep (nowYear : Nat) (f5 f6 f7 : List Char) : Outcome DateTime :=
  if f7.contains ':' then
    if (natChars nowYear).length < 4 then .crash
    else
      match goTimeParse f6 f5 (((natChars nowYear).drop 2).take 2) f7 with
      | none => .err "time parse failed"
      | some t => .ok t
  else
    if f7.length < 4 then .crash
    else
      match goTimeParse f6 f5 ((f7.drop 2).take 2) "00:00".data with
      | none => .err "time parse failed"
      | some t => .ok t

/-- Body of `parseListLine` after the nine-field split succeeded.  The
original indexes `fields[0][0]`, which cannot fail because `strings.Fields`
never yields an empty field; the empty case is kept as a crash for
faithfulness. -/
def parseFieldsAux (nowYear : Nat) (f0 f4 f5 f6 f7 : List Char)
    (nameFields : List (List Char)) : Outcome Entry :=
  match f0 with
  | [] => .crash
  | c :: _ =>
    match typeOfChar c with
    | none => .err "unknown entry type"
    | some ty =>
      match sizeStep ty f4 with
      | .crash => .crash
      | .err e => .err e
      | .ok size =>
        match timeStep nowYear f5 f6 f7 with
        | .crash => .crash
        | .err e => .err e
        | .ok t =>
          .ok { name := String.mk (intercalateSpace nameFields),
                type := ty, size := size, time := t }

/-- Shallow embedding of `parseListLine` (src/unnamed/part_000 lines
272–313).  `nowYear` stands for the year of `time.Now()`. -/
def parseListLine (nowYear : Nat) (line : String) : Outcome Entry :=
  match goFields line.data with
  | f0 :: _f1 :: _f2 :: _f3 :: f4 :: f5 :: f6 :: f7 :: f8 :: rest =>
    parseFieldsAux nowYear f0 f4 f5 f6 f7 (f8 :: rest)
  | _ => .err "unsupported LIST line"

/-- Go time format verb pair `15`/`04`: zero-padded two-digit value. -/
def pad2 (n : Nat) : List Char := [digitChar (n / 10), digitChar (n % 10)]

/-- Go time layout element `_2` when formatting: day of month space-padded
to width two. -/
def fmtDay (n : Nat) : List Char := if n < 10 then [' ', digitChar n] else natChars n

/-- Go format verb `%8d`: decimal, right-aligned in a field of width eight. -/
def pad8 (s : List Char) : List Char := List.replicate (8 - s.length) ' ' ++ s

/-- Go `t.Format("Jan _2 15:04")`. -/
def fmtTime (t : DateTime) : List Char :=
  monthAbbrev t.month ++ ' ' :: fmtDay t.day ++ ' ' :: pad2 t.hour ++ ':' :: pad2 t.minute

/-- The slice of `os.FileInfo` consumed by the listing formatters:
`Mode().String()`, `Size()`, `ModTime()` and `Name()`. -/
structure FileItem where
  mode : String
  size : Nat
  modTime : DateTime
  name : String
  deriving DecidableEq, Repr

/-- One line of `ListDetailed`:
`fmt.Fprintf(&buf, "%s\t1 user\tgroup\t%8d %s %s\r\n", ...)`. -/
def detailedLine (it : FileItem) : List Char :=
  it.mode.data ++ "\t1 user\tgroup\t".data ++ pad8 (natChars it.size) ++
    ' ' :: fmtTime it.modTime ++ ' ' :: it.name.data ++ "\r\n".data

/-- The `null` fallback listing (two synthetic `.` and `..` lines). -/
def nullListing : String :=
  "drwxrwxrwx 1 user group 0 Apr  1 00:00 .\r\ndrwxrwxrwx 1 user group 0 Apr  1 00:00 ..\r\n"

/-- Shallow embedding of `ListDetailed` (listing-codec source file). -/
def ListDetailed (items : List FileItem) : String :=
  if items = [] then nullListing
  else String.mk (items.foldr (fun it acc => detailedLine it ++ acc) [])

/-- Shallow embedding of `ListShort` (listing-codec source file). -/
def ListShort (items : List FileItem) : String :=
  if items = [] then nullListing
  else String.mk (items.foldr (fun it acc => it.name.data ++ "\r\n".data ++ acc) [])

/-- Modelled from the spec: the repository has no conversion from a parsed
`Entry` back to an `os.FileInfo`, yet the round-trip property of spec §8
feeds a parsed entry to the detailed formatter; the canonical permission
string of each entry type stands in for `Mode().String()`. -/
def modeStringOfType : EntryType → String
  | .file => "-rw-rw-rw-"
  | .folder => "drwxrwxrwx"
  | .link => "lrwxrwxrwx"

/-- View of a parsed entry as a formatter input (see `modeStringOfType`). -/
def entryToItem (e : Entry) : FileItem :=
  { mode := modeStringOfType e.type, size := e.size, modTime := e.time, name := e.name }

/-- The detailed-listing line the formatter emits for a parsed entry. -/
def formatEntryLine (e : Entry) : String := String.mk (detailedLine (entryToItem e))

/-- Decimal rendering of a natural number as a `String`. -/
def natStr (n : Nat) : String := String.mk (natChars n)

/-- Model of `startsWith` on character lists. -/
def startsWithL : List Char → List Char → Bool
  | _, [] => true
  | [], _ :: _ => false
  | a :: as, b :: bs => a == b && startsWithL as bs

/-- Scanning core of `strings.Index`. -/
def idxFrom (pat : List Char) : List Char → Nat → Option Nat
  | [], i => if pat = [] then some i else none
  | c :: rest, i => if startsWithL (c :: rest) pat then some i else idxFrom pat rest (i + 1)

/-- Model of Go `strings.Index`: position of the first occurrence of `pat`,
or `-1`. -/
def strIndex (s pat : List Char) : Int :=
  match idxFrom pat s 0 with
  | some i => (i : Int)
  | none => -1

/-- Scanning core of `strings.LastIndex`. -/
def lastFrom (pat : List Char) : List Char → Nat → Option Nat → Option Nat
  | [], i, best => if pat = [] then some i else best
  | c :: rest, i, best =>
    lastFrom pat rest (i + 1) (if startsWithL (c :: rest) pat then some i else best)

/-- Model of Go `strings.LastIndex`: position of the last occurrence of
`pat`, or `-1`. -/
def strLastIndex (s pat : List Char) : Int :=
  match lastFrom pat s 0 none with
  | some i => (i : Int)
  | none => -1

/-- Model of the Go string slice `s[a:b]`, which panics unless
`a ≤ b ≤ len(s)`. -/
def sliceGo (s : List Char) (a b : Nat) : Outcome (List Char) :=
  if a ≤ b ∧ b ≤ s.length then .ok ((s.drop a).take (b - a)) else .crash

/-- Model of Go `strings.Split` with a one-character separator (the library
splits only on `","` and `" "`). -/
def splitSep (sep : Char) : List Char → List (List Char)
  | [] => [[]]
  | c :: rest =>
    if c = sep then [] :: splitSep sep rest
    else
      match splitSep sep rest with
      | w :: ws => (c :: w) :: ws
      | [] => [[c]]

/-- Shallow embedding of `ClientConn.epsv` (src/unnamed/part_000 lines
218–232).  The control-connection exchange is abstracted to its outcome:
`reply` is either the error of `cmd` or the 229 reply text. -/
def epsv (reply : Except String String) : Outcome Int :=
  match reply with
  | .error e => .err e
  | .ok line =>
    let start := strIndex line.data "|||".data
    let stop := strLastIndex line.data "|".data
    if start = -1 ∨ stop = -1 then .err "invalid EPSV response format"
    else
      match sliceGo line.data (start + 3).toNat stop.toNat with
      | .crash => .crash
      | .err e => .err e
      | .ok inner =>
        match goAtoi inner with
        | none => .err "invalid port number"
        | some p => .ok p

/-- Shallow embedding of `ClientConn.pasv` (src/unnamed/part_000 lines
235–253).  `lst[n-2]` is a Go index expression that panics when the split
yields fewer than two fields; `strconv.Atoi` errors are discarded, leaving
`0` for a non-numeric field. -/
def pasv (reply : Except String String) : Outcome Int :=
  match reply with
  | .error e => .err e
  | .ok line =>
    let start := strIndex line.data "(".data
    let stop := strLastIndex line.data ")".data
    if start = -1 ∨ stop = -1 then .err "invalid PASV response format"
    else
      match sliceGo line.data (start + 1).toNat stop.toNat with
      | .crash => .crash
      | .err e => .err e
      | .ok inner =>
        let lst := splitSep ',' inner
        let n := lst.length
        if n < 2 then .crash
        else
          let x := (goAtoi (lst.getD (n - 2) [])).getD 0
          let y := (goAtoi (lst.getD (n - 1) [])).getD 0
          .ok (x * 256 + y)

/-- Observable result of `openDataConn`: either a negotiation panicked, or
`net.DialTimeout` was invoked with the given host and port. -/
inductive DataConnResult where
  | crashed : DataConnResult
  | dialed : String → Int → DataConnResult
  deriving DecidableEq, Repr

/-- Shallow embedding of `ClientConn.openDataConn` (src/unnamed/part_000
lines 256–268).  The two passive negotiations are abstracted to the reply
each would receive.  The final branch is the double-failure path: the Go
code discards both errors (the inner `if` body is empty) and dials anyway;
`port` is `0` there because every error path of `pasv` leaves its named
`port` result at its zero value. -/
def openDataConn (host : String) (epsvReply pasvReply : Except String String) :
    DataConnResult :=
  match epsv epsvReply with
  | .crash => .crashed
  | .ok p => .dialed host p
  | .err _ =>
    match pasv pasvReply with
    | .crash => .crashed
    | .ok p => .dialed host p
    | .err _ => .dialed host 0

/-- The client-session fields relevant to the connect/login claims. -/
structure CConn where
  host : String
  deriving DecidableEq, Repr

/-- Go `(*ClientConn).Quit` begins with `c.conn.Cmd("QUIT")`; on a nil
receiver this reads `c.conn` through a nil pointer and panics. -/
def quitCall : Option CConn → Outcome Unit
  | none => .crash
  | some _ => .ok ()

/-- Shallow embedding of `Connect` (src/unnamed/part_000 lines 207–214).
`dialResult` abstracts `Dial(addr)` and `loginResult` abstracts
`c.Login(user, password)`.  When the dial fails, `c` is nil and the code
still calls `c.Quit()`. -/
def Connect (dialResult : Except String CConn)
    (loginResult : CConn → Except String Unit) : Outcome CConn :=
  match dialResult with
  | .error e =>
    match quitCall none with
    | .crash => .crash
    | .err e2 => .err e2
    | .ok _ => .err e
  | .ok c =>
    match loginResult c with
    | .error e => .err e
    | .ok _ => .ok c

/-- Modelled from the spec: the repository's status-constant file is not
under `src/`; spec §6 lists the numeric code of each named constant the
sources reference. -/
def StatusReady : Nat := 220

/-- Spec §6: user-ok-need-password. -/
def StatusUserOK : Nat := 331

/-- Spec §6: logged-in. -/
def StatusLoggedIn : Nat := 230

/-- Spec §6: command-OK. -/
def StatusCommandOK : Nat := 200

/-- Spec §6: file-status (SIZE). -/
def StatusFile : Nat := 213

/-- Spec §6: path-created (PWD/MKD). -/
def StatusPathCreated : Nat := 257

/-- Spec §6: action-pending (RNFR/REST). -/
def StatusRequestFilePending : Nat := 350

/-- Spec §6: requested-action-OK. -/
def StatusRequestedFileActionOK : Nat := 250

/-- Spec §6: extended-passive-mode. -/
def StatusExtendedPassiveMode : Nat := 229

/-- Spec §6: about-to-send. -/
def StatusAboutToSend : Nat := 150

/-- Spec §6: closing-data-connection. -/
def StatusClosingDataConnection : Nat := 226

/-- Spec §6: system-type. -/
def StatusName : Nat := 215

/-- Spec §6: cannot-open-data-connection. -/
def StatusCanNotOpenDataConnection : Nat := 425

/-- Spec §6: file-unavailable (the constant the server sources name
`StatusFileUnavailable`). -/
def StatusFileUnavailable : Nat := 550

/-- Spec §6: bad-arguments. -/
def StatusBadArguments : Nat := 501

/-- Spec §6: command-not-implemented. -/
def StatusCommandNotImplemented : Nat := 502

/-- Spec §6: transfer-aborted (source spelling kept). -/
def StatusTransfertAborted : Nat := 426

/-- Modelled from the spec: the repository's status-message table is not
under `src/`, and no claim depends on the text, so it is left abstract as
the empty string. -/
def Message (_code : Nat) : String := ""

/-- A control-connection reply: numeric code and text. -/
abbrev Reply := Nat × String

/-- The `PassiveConn` fields the claims need (server-side inbound data
channel): the bound host and the listener-assigned port, both stored as
strings, as in the source. -/
structure PassiveConnM where
  host : String
  port : String
  deriving DecidableEq, Repr

/-- `PassiveConn.Host` returns the constant `"127.0.0.1"` regardless of the
stored host. -/
def PassiveConnM.Host (_pc : PassiveConnM) : String := "127.0.0.1"

/-- `PassiveConn.Port`: `strconv.Atoi` of the stored port string, `0` on
error.  Listener-assigned port strings are decimal digits, so the value is
non-negative and `toNat` is exact. -/
def PassiveConnM.Port (pc : PassiveConnM) : Nat := ((goAtoi pc.port.data).getD 0).toNat

/-- Model of Go `strings.ReplaceAll` for a one-character pattern and a
one-character replacement (the only use replaces `"."` by `","`). -/
def replaceAllL (s : List Char) (a b : Char) : List Char :=
  s.map fun c => if c = a then b else c

/-- The 227 reply text built in the PASV case (server.go lines 224–228):
`x := port / 256; y := port - x*256`, and the address quad is `Host()` with
dots replaced by commas. -/
def pasvMsg (pc : PassiveConnM) : String :=
  let port := pc.Port
  let x := port / 256
  let y := port - x * 256
  String.mk ("Entering Passive Mode (".data ++ replaceAllL pc.Host.data '.' ',' ++
    ",".data ++ natChars x ++ ",".data ++ natChars y ++ ")".data)

/-- The 229 reply text built in the EPSV case (server.go lines 185–186). -/
def epsvMsg (pc : PassiveConnM) : String :=
  String.mk ("Entering Extended Passive Mode (|||".data ++ natChars pc.Port ++ "|)".data)

/-- Status of the session's active data channel; only the open/closed bit is
observable to the dispatcher claims. -/
structure DChan where
  isOpen : Bool
  deriving DecidableEq, Repr

/-- Per-session server state (`ServerConn`, server.go lines 71–77): `pfx`
models the Go field `prefix` (renamed: `prefix` is reserved in this
development), `rn` is the rename-pending source and `dataConn` the active
data channel. -/
structure SSess where
  pfx : String
  rn : String
  host : String
  dataConn : Option DChan
  deriving DecidableEq, Repr

/-- `ServerConn.Close` (server.go lines 79–86): closes the control and data
connections and clears the `dataConn` field. -/
def closeConn (s : SSess) : SSess := { s with dataConn := none }

/-- Stat surface of the OS filesystem collaborator: directory flag, size
and (for regular files) contents. -/
structure FInfo where
  isDir : Bool
  size : Nat
  content : String
  deriving DecidableEq, Repr

/-- The filesystem collaborator, as a path-indexed association list. -/
abbrev FS := List (String × FInfo)

/-- Model of `os.Stat`: `none` is a non-nil error (and a nil `FileInfo`). -/
def statFS (fs : FS) (p : String) : Option FInfo := fs.lookup p

/-- Model of `os.Remove` on an existing path. -/
def removeFS (fs : FS) (p : String) : FS := fs.filter fun kv => kv.1 ≠ p

/-- Model of `os.RemoveAll`: drop the path and everything below it. -/
def removeAllFS (fs : FS) (p : String) : FS :=
  fs.filter fun kv => kv.1 ≠ p ∧ ¬ startsWithL kv.1.data (p ++ "/").data

/-- Create or replace an entry. -/
def setFS (fs : FS) (p : String) (fi : FInfo) : FS :=
  (p, fi) :: fs.filter fun kv => kv.1 ≠ p

/-- Model of `os.Rename`; of the OS error conditions only the one the tests
exercise is modelled: renaming fails when the source does not exist. -/
def renameFS (fs : FS) (src dst : String) : Option FS :=
  match statFS fs src with
  | none => none
  | some fi => some (setFS (removeFS fs src) dst fi)

/-- Stack machine of the lexical cleaning performed by Go `path.Clean`. -/
def cleanAux (rooted : Bool) : List String → List String → List String
  | [], stack => stack
  | e :: rest, stack =>
    if e = "" ∨ e = "." then cleanAux rooted rest stack
    else if e = ".." then
      match stack with
      | q :: s' =>
        if q = ".." then cleanAux rooted rest (e :: q :: s')
        else cleanAux rooted rest s'
      | [] => if rooted then cleanAux rooted rest [] else cleanAux rooted rest [".."]
    else cleanAux rooted rest (e :: stack)

/-- Model of Go `path.Clean` (purely lexical). -/
def pathClean (p : String) : String :=
  if p = "" then "."
  else
    let rooted := startsWithL p.data "/".data
    let stack := (cleanAux rooted ((splitSep '/' p.data).map String.mk) []).reverse
    if rooted then String.mk ('/' :: joinSep '/' (stack.map String.data))
    else if stack = [] then "." else String.mk (joinSep '/' (stack.map String.data))

/-- Model of Go `path.Join`: drop empty elements, join with `/`, clean. -/
def pathJoin (elems : List String) : String :=
  let es := elems.filter fun e => e ≠ ""
  if es = [] then "" else pathClean (String.mk (joinSep '/' (es.map String.data)))

/-- Shallow embedding of `ServerConn.parsingPath` (server.go lines
118–126). -/
def parsingPath (pfx : String) (params : List String) : String :=
  let p := String.mk (joinSep ' ' (params.map String.data))
  if startsWithL p.data "/".data then pathJoin [".", p] else pathJoin [pfx, p]

/-- Model of Go `strings.TrimSpace`. -/
def trimSpaceL (s : List Char) : List Char :=
  ((s.dropWhile fun c => isSpaceChar c).reverse.dropWhile fun c => isSpaceChar c).reverse

/-- Upper-case an ASCII letter (model of `strings.ToUpper`). -/
def upperChar (c : Char) : Char :=
  if 'a' ≤ c ∧ c ≤ 'z' then Char.ofNat (c.toNat - 32) else c

/-- Model of Go `strings.ToUpper` on a `String`. -/
def toUpperS (q : String) : String := String.mk (q.data.map upperChar)

/-- External collaborators consumed by one dispatcher step (spec §6): the
outcome of `NewPassiveConn`, the directory enumeration of the working
directory, and the bytes the remote peer delivers on the data channel. -/
structure StepExt where
  newPassive : Option PassiveConnM
  dirItems : List FileItem
  clientBytes : String

/-- Shallow embedding of `ServerConn.sendData` (server.go lines 107–116):
write to the active data channel, close it, confirm — the `dataConn` field
keeps pointing at the closed channel; with no active channel, report
transfer-aborted.  A write to an already-closed channel errors and reports
zero bytes. -/
def sendData (s : SSess) (data : String) : SSess × List Reply :=
  match s.dataConn with
  | some dc =>
    let n := if dc.isOpen then data.length else 0
    ({ s with dataConn := some { dc with isOpen := false } },
     [(StatusClosingDataConnection, "Closing data connection, sent " ++ natStr n ++ " bytes.")])
  | none => (s, [(StatusTransfertAborted, Message StatusTransfertAborted)])

/-- One iteration of the `ServerConn.Serve` switch (server.go lines
145–308) after the command line has been split.  `Outcome.crash` marks the
executions in which the Go original panics: the nil-`FileInfo` dereference
of the CWD/SIZE/RMD stat pattern, `params[1]` when TYPE has no argument,
and `io.Copy` from a nil data-channel interface in STOR. -/
def dispatch (ext : StepExt) (fs : FS) (s : SSess) (params : List String) :
    Outcome (FS × SSess × List Reply) :=
  match toUpperS (params.headD "") with
  | "USER" => .ok (fs, s, [(StatusUserOK, Message StatusUserOK)])
  | "PASS" => .ok (fs, s, [(StatusLoggedIn, Message StatusLoggedIn)])
  | "PWD" =>
    .ok (fs, s, [(StatusPathCreated, "\"" ++ s.pfx ++ "\" is current directory.")])
  | "CWD" =>
    let p := parsingPath s.pfx params.tail
    match statFS fs p with
    | none => .crash
    | some f =>
      if f.isDir then
        .ok (fs, { s with pfx := p },
          [(StatusRequestedFileActionOK, "Directory changed to " ++ p)])
      else .ok (fs, s, [(StatusFileUnavailable, Message StatusFileUnavailable)])
  | "DELE" =>
    let p := parsingPath s.pfx params.tail
    match statFS fs p with
    | none => .ok (fs, s, [(StatusFileUnavailable, Message StatusFileUnavailable)])
    | some _ => .ok (removeFS fs p, s, [(StatusRequestedFileActionOK, "File deleted.")])
  | "EPSV" =>
    match ext.newPassive with
    | none =>
      .ok (fs, s, [(StatusCanNotOpenDataConnection, Message StatusCanNotOpenDataConnection)])
    | some pc =>
      .ok (fs, { s with dataConn := some { isOpen := true } },
        [(StatusExtendedPassiveMode, epsvMsg pc)])
  | "SIZE" =>
    let p := parsingPath s.pfx params.tail
    match statFS fs p with
    | none => .crash
    | some f =>
      if f.isDir then .ok (fs, s, [(StatusFile, "1024")])
      else .ok (fs, s, [(StatusFile, natStr f.size)])
  | "LIST" =>
    let info := ListDetailed ext.dirItems
    let r := sendData s info
    .ok (fs, r.1,
      (StatusAboutToSend, "Opening ASCII mode data connection for file list") :: r.2)
  | "MKD" =>
    let p := parsingPath s.pfx params.tail
    match statFS fs p with
    | some _ => .ok (fs, s, [(StatusFileUnavailable, "mkdir: file exists")])
    | none =>
      .ok (setFS fs p ⟨true, 0, ""⟩, s, [(StatusPathCreated, Message StatusPathCreated)])
  | "NOOP" => .ok (fs, s, [(StatusCommandOK, Message StatusCommandOK)])
  | "PASV" =>
    match ext.newPassive with
    | none =>
      .ok (fs, s, [(StatusCanNotOpenDataConnection, Message StatusCanNotOpenDataConnection)])
    | some pc =>
      .ok (fs, { s with dataConn := some { isOpen := true } }, [(227, pasvMsg pc)])
  | "QUIT" => .ok (fs, closeConn s, [])
  | "RETR" =>
    let p := parsingPath s.pfx params.tail
    match statFS fs p with
    | none => .ok (fs, s, [(StatusFileUnavailable, "read error")])
    | some f =>
      if f.isDir then .ok (fs, s, [(StatusFileUnavailable, "read error")])
      else
        let r := sendData s f.content
        .ok (fs, r.1,
          (150, "Data transfer starting " ++ natStr f.content.length ++ "bytes") :: r.2)
  | "RMD" | "XRMD" =>
    let p := parsingPath s.pfx params.tail
    match statFS fs p with
    | none => .crash
    | some f =>
      if f.isDir then
        .ok (removeAllFS fs p, s, [(StatusRequestedFileActionOK, "Directory deleted.")])
      else .ok (fs, s, [(StatusFileUnavailable, Message StatusFileUnavailable)])
  | "RNFR" =>
    .ok (fs, { s with rn := parsingPath s.pfx params.tail },
      [(StatusRequestFilePending, Message StatusRequestFilePending)])
  | "RNTO" =>
    let p := parsingPath s.pfx params.tail
    match renameFS fs s.rn p with
    | none => .ok (fs, s, [(StatusFileUnavailable, "rename error")])
    | some fs' => .ok (fs', s, [(StatusRequestedFileActionOK, "File renamed.")])
  | "SYST" => .ok (fs, s, [(StatusName, Message StatusName)])
  | "STOR" =>
    let p := parsingPath s.pfx params.tail
    let openOk : Bool :=
      match statFS fs p with
      | some f => !f.isDir
      | none => true
    let rs1 :=
      if openOk then [((150 : Nat), "Data transfer starting.")]
      else [((150 : Nat), "Data transfer starting."), (450, Message 450)]
    match s.dataConn with
    | none => .crash
    | some dc =>
      let n := if dc.isOpen && openOk then ext.clientBytes.length else 0
      let fs' :=
        if openOk then
          setFS fs p ⟨false, n, if dc.isOpen then ext.clientBytes else ""⟩
        else fs
      let finalR :=
        if n ≥ 0 then (226, "OK, received " ++ natStr n ++ " bytes.")
        else (550, Message 550)
      .ok (fs', s, rs1 ++ [finalR])
  | "TYPE" =>
    match params[1]? with
    | none => .crash
    | some q =>
      let param := toUpperS q
      if param = "A" then .ok (fs, s, [(StatusCommandOK, "Type set to ASCII.")])
      else if param = "I" then .ok (fs, s, [(StatusCommandOK, "Type set to binary.")])
      else .ok (fs, s, [(StatusBadArguments, "Invalid type.")])
  | _ => .ok (fs, s, [(StatusCommandNotImplemented, Message StatusCommandNotImplemented)])

/-- One full command-line step of `ServerConn.Serve` (server.go lines
134–146): split the trimmed line on single spaces and dispatch on the
upper-cased first token. -/
def serveStep (ext : StepExt) (fs : FS) (s : SSess) (cmdLine : String) :
    Outcome (FS × SSess × List Reply) :=
  dispatch ext fs s ((splitSep ' ' (trimSpaceL cmdLine.data)).map String.mk)

/-- An external-collaborator bundle for dispatcher runs that need none. -/
def extNone : StepExt := ⟨none, [], ""⟩

/-- An external-collaborator bundle in which `NewPassiveConn` succeeded with
a listener on port 2000. -/
def extPasv : StepExt := ⟨some ⟨"localhost", "2000"⟩, [], ""⟩

/-- A small filesystem: directory `root/sub` and three-byte file
`root/f.txt`. -/
def fsDemo : FS := [("root/sub", ⟨true, 0, ""⟩), ("root/f.txt", ⟨false, 3, "abc"⟩)]

/-- A fresh session rooted at `root`. -/
def sessDemo : SSess := ⟨"root", "", "localhost", none⟩

/-- `sessDemo` with an open active data channel. -/
def sessOpen : SSess := ⟨"root", "", "localhost", some ⟨true⟩⟩

/-- The entry parsed from `"-rw-rw-rw- 1 user group 100 Jan 1 2019 f"`:
a 100-byte file dated midnight, January 1, 2019. -/
def entry2019 : Entry :=
  { name := "f", type := .file, size := 100, time := ⟨2019, 1, 1, 0, 0⟩ }

/-- A non-empty whitespace-free word, the shape of every field produced by
`strings.Fields`. -/
def Word (w : List Char) : Prop := w ≠ [] ∧ ∀ c ∈ w, isSpaceChar c = false

theorem digitChar_isDigit (n : Nat) (h : n < 10) : (digitChar n).isDigit = true := by
  interval_cases n <;> rfl

theorem digitVal_digitChar (n : Nat) (h : n < 10) : digitVal (digitChar n) = n := by
  interval_cases n <;> rfl

theorem natCharsF_congr : ∀ (n fuel fuel' : Nat), n < fuel → n < fuel' →
    natCharsF fuel n = natCharsF fuel' n := by
  intro n
  induction n using Nat.strong_induction_on with
  | _ n ih =>
    intro fuel fuel' h h'
    cases fuel with
    | zero => omega
    | succ f =>
      cases fuel' with
      | zero => omega
      | succ f' =>
        simp only [natCharsF]
        by_cases h10 : n < 10
        · simp [h10]
        · simp only [h10, if_false]
          rw [ih (n / 10) (by omega) f f' (by omega) (by omega)]

theorem natChars_eq (n : Nat) :
    natChars n = if n < 10 then [digitChar n] else natChars (n / 10) ++ [digitChar (n % 10)] := by
  by_cases h : n < 10
  · simp [natChars, natCharsF, h]
  · have step : natCharsF (n + 1) n = natCharsF n (n / 10) ++ [digitChar (n % 10)] := by
      simp [natCharsF, h]
    rw [if_neg h]
    show natCharsF (n + 1) n = natChars (n / 10) ++ [digitChar (n % 10)]
    rw [step, natCharsF_congr (n / 10) n (n / 10 + 1) (by omega) (by omega)]
    rfl

theorem parseVal_append_digit (s : List Char) (c : Char) :
    parseVal (s ++ [c]) = parseVal s * 10 + digitVal c := by
  simp [parseVal, List.foldl_append]

theorem parseVal_natChars : ∀ n, parseVal (natChars n) = n := by
  intro n
  induction n using Nat.strong_induction_on with
  | _ n ih =>
    rw [natChars_eq]
    by_cases h : n < 10
    · simp [h, parseVal, digitVal_digitChar n h]
    · simp only [h, if_false]
      rw [parseVal_append_digit, ih (n / 10) (by omega), digitVal_digitChar (n % 10) (by omega)]
      omega

theorem natChars_ne_nil (n : Nat) : natChars n ≠ [] := by
  rw [natChars_eq]
  by_cases h : n < 10 <;> simp [h]

theorem natChars_all_digits : ∀ n, (natChars n).all Char.isDigit = true := by
  intro n
  induction n using Nat.strong_induction_on with
  | _ n ih =>
    rw [natChars_eq]
    by_cases h : n < 10
    · simp [h, digitChar_isDigit n h]
    · simp only [h, if_false, List.all_append, Bool.and_eq_true]
      exact ⟨ih (n / 10) (by omega), by simp [digitChar_isDigit (n % 10) (by omega)]⟩

theorem parseUintL_natChars (n : Nat) (h : n < 2 ^ 64) : parseUintL (natChars n) = some n := by
  unfold parseUintL
  rw [if_pos ⟨natChars_ne_nil n, natChars_all_digits n, by rw [parseVal_natChars]; exact h⟩]
  rw [parseVal_natChars]

theorem natChars_lt10 (n : Nat) (h : n < 10) : natChars n = [digitChar n] := by
  rw [natChars_eq, if_pos h]

theorem natChars_two (n : Nat) (h1 : 10 ≤ n) (h2 : n < 100) :
    natChars n = [digitChar (n / 10), digitChar (n % 10)] := by
  rw [natChars_eq, if_neg (by omega), natChars_lt10 (n / 10) (by omega)]
  rfl

theorem natChars_four (y : Nat) (h1 : 1000 ≤ y) (h2 : y ≤ 9999) :
    natChars y = [digitChar (y / 1000), digitChar (y / 100 % 10),
      digitChar (y / 10 % 10), digitChar (y % 10)] := by
  have e1 : y / 10 / 10 = y / 100 := by omega
  have e2 : y / 100 / 10 = y / 1000 := by omega
  rw [natChars_eq, if_neg (by omega)]
  rw [natChars_eq, if_neg (by omega), e1]
  rw [natChars_eq, if_neg (by omega), e2]
  rw [natChars_lt10 (y / 1000) (by omega)]
  rfl

theorem year2_slice_roundtrip (y : Nat) (h1 : 1969 ≤ y) (h2 : y ≤ 2068) :
    year2Parse (((natChars y).drop 2).take 2) = some y := by
  rw [natChars_four y (by omega) (by omega)]
  show year2Parse [digitChar (y / 10 % 10), digitChar (y % 10)] = some y
  simp only [year2Parse]
  rw [if_pos ⟨digitChar_isDigit _ (by omega), digitChar_isDigit _ (by omega)⟩]
  rw [digitVal_digitChar _ (by omega), digitVal_digitChar _ (by omega)]
  have hv : y / 10 % 10 * 10 + y % 10 = y % 100 := by omega
  rw [hv]
  by_cases h69 : 69 ≤ y % 100
  · rw [if_pos h69]
    simp only [Option.some.injEq]
    omega
  · rw [if_neg h69]
    simp only [Option.some.injEq]
    omega

theorem dayParse_natChars (d : Nat) (h2 : d ≤ 31) : dayParse (natChars d) = some d := by
  by_cases h : d < 10
  · rw [natChars_lt10 d h]
    simp only [dayParse]
    rw [if_pos (digitChar_isDigit d h)]
    rw [digitVal_digitChar d h]
  · rw [natChars_two d (by omega) (by omega)]
    simp only [dayParse]
    rw [if_pos ⟨digitChar_isDigit _ (by omega), digitChar_isDigit _ (by omega)⟩]
    rw [digitVal_digitChar _ (by omega), digitVal_digitChar _ (by omega)]
    simp only [Option.some.injEq]
    omega

theorem clockParse_pad2 (h m : Nat) (hh : h ≤ 23) (hm : m ≤ 59) :
    clockParse (pad2 h ++ ':' :: pad2 m) = some (h, m) := by
  show clockParse [digitChar (h / 10), digitChar (h % 10), ':',
    digitChar (m / 10), digitChar (m % 10)] = some (h, m)
  simp only [clockParse]
  rw [if_pos ⟨trivial, digitChar_isDigit _ (by omega), digitChar_isDigit _ (by omega),
    digitChar_isDigit _ (by omega), digitChar_isDigit _ (by omega)⟩]
  rw [digitVal_digitChar _ (by omega), digitVal_digitChar _ (by omega),
    digitVal_digitChar _ (by omega), digitVal_digitChar _ (by omega)]
  simp only [Option.some.injEq, Prod.mk.injEq]
  omega

theorem contains_colon_clock (h m : Nat) :
    (pad2 h ++ ':' :: pad2 m).contains ':' = true := by
  have hmem : ':' ∈ pad2 h ++ ':' :: pad2 m := by simp
  show List.elem ':' (pad2 h ++ ':' :: pad2 m) = true
  exact List.elem_iff.mpr hmem

theorem fieldsCore_word (w : List Char) (hns : ∀ c ∈ w, isSpaceChar c = false) :
    ∀ (b cur : List Char), fieldsCore (w ++ b) cur = fieldsCore b (w.reverse ++ cur) := by
  induction w with
  | nil => intro b cur; simp
  | cons a as ih =>
    intro b cur
    have ha : isSpaceChar a = false := hns a (List.mem_cons_self a as)
    show fieldsCore (a :: (as ++ b)) cur = _
    simp only [fieldsCore, ha, Bool.false_eq_true, if_false]
    rw [ih (fun c hc => hns c (List.mem_cons_of_mem a hc)) b (a :: cur)]
    simp [List.append_assoc]

theorem fieldsCore_sep (c : Char) (hc : isSpaceChar c = true) (b cur : List Char) :
    fieldsCore (c :: b) cur =
      (if cur = [] then [] else [cur.reverse]) ++ fieldsCore b [] := by
  simp only [fieldsCore, hc, if_true]
  split <;> simp

theorem fieldsStep (w : List Char) (hw : Word w) (c : Char) (hc : isSpaceChar c = true)
    (b : List Char) : fieldsCore (w ++ c :: b) [] = w :: fieldsCore b [] := by
  rw [fieldsCore_word w hw.2 (c :: b) [], fieldsCore_sep c hc]
  rw [if_neg (by simp [hw.1])]
  simp

theorem fieldsCore_rep (k : Nat) (b : List Char) :
    fieldsCore (List.replicate k ' ' ++ b) [] = fieldsCore b [] := by
  induction k with
  | zero => simp
  | succ n ih =>
    rw [List.replicate_succ, List.cons_append, fieldsCore_sep ' ' rfl]
    simpa using ih

theorem fieldsCore_join : ∀ (nm : List (List Char)), (∀ w ∈ nm, Word w) →
    ∀ (c : Char), isSpaceChar c = true → ∀ (tail : List Char),
    fieldsCore (intercalateSpace nm ++ c :: tail) [] = nm ++ fieldsCore tail [] := by
  intro nm
  induction nm with
  | nil =>
    intro _ c hc tail
    show fieldsCore ([] ++ c :: tail) [] = _
    rw [List.nil_append, fieldsCore_sep c hc]
    simp
  | cons w ws ih =>
    intro hnm c hc tail
    cases ws with
    | nil =>
      show fieldsCore (w ++ c :: tail) [] = _
      rw [fieldsStep w (hnm w (by simp)) c hc]
      rfl
    | cons w2 ws2 =>
      show fieldsCore ((w ++ ' ' :: joinSep ' ' (w2 :: ws2)) ++ c :: tail) [] = _
      conv_lhs => rw [List.append_assoc, List.cons_append]
      rw [fieldsStep w (hnm w (by simp)) ' ' rfl]
      rw [show joinSep ' ' (w2 :: ws2) ++ c :: tail =
        intercalateSpace (w2 :: ws2) ++ c :: tail from rfl]
      rw [ih (fun x hx => hnm x (by simp [hx])) c hc tail]
      rfl

theorem goFields_word : ∀ (s cur : List Char), (∀ c ∈ cur, isSpaceChar c = false) →
    ∀ w ∈ fieldsCore s cur, Word w := by
  intro s
  induction s with
  | nil =>
    intro cur hcur w hw
    by_cases h : cur = []
    · simp [fieldsCore, h] at hw
    · simp only [fieldsCore, h, if_false] at hw
      simp only [List.mem_singleton] at hw
      subst hw
      exact ⟨by simp [h], fun c hc => hcur c (by simpa using hc)⟩
  | cons a as ih =>
    intro cur hcur w hw
    by_cases ha : isSpaceChar a = true
    · rw [fieldsCore_sep a ha] at hw
      by_cases h0 : cur = []
      · rw [if_pos h0, List.nil_append] at hw
        exact ih [] (by simp) w hw
      · rw [if_neg h0] at hw
        rcases List.mem_append.mp hw with hl | hr
        · simp only [List.mem_singleton] at hl
          subst hl
          exact ⟨by simp [h0], fun c hc => hcur c (by simpa using hc)⟩
        · exact ih [] (by simp) w hr
    · have ha' : isSpaceChar a = false := by simpa using ha
      simp only [fieldsCore, ha', Bool.false_eq_true, if_false] at hw
      refine ih (a :: cur) ?_ w hw
      intro c hc
      rcases List.mem_cons.mp hc with h1 | h2
      · subst h1; exact ha'
      · exact hcur c h2

theorem lookupIdx_bounds : ∀ (ns : List (List Char)) (t : List Char) (i m : Nat),
    lookupIdx ns t i = some m → i ≤ m ∧ m < i + ns.length := by
  intro ns
  induction ns with
  | nil => intro t i m h; exact absurd h (by simp [lookupIdx])
  | cons n ns ih =>
    intro t i m h
    unfold lookupIdx at h
    by_cases ht : t = n
    · rw [if_pos ht] at h
      cases h
      simp only [List.length_cons]
      omega
    · rw [if_neg ht] at h
      have := ih t (i + 1) m h
      simp only [List.length_cons]
      omega

theorem monthLookup_bounds (s : List Char) (m : Nat) (h : monthLookup s = some m) :
    1 ≤ m ∧ m ≤ 12 := by
  have hb := lookupIdx_bounds monthNames (s.map lowerChar) 1 m h
  have hlen : monthNames.length = 12 := rfl
  rw [hlen] at hb
  omega

theorem monthLookup_monthAbbrev (m : Nat) (h1 : 1 ≤ m) (h2 : m ≤ 12) :
    monthLookup (monthAbbrev m) = some m := by
  interval_cases m <;> decide

theorem daysInMonth_le31 (m y : Nat) : daysInMonth m y ≤ 31 := by
  unfold daysInMonth
  split <;> first | omega | (split <;> omega)

theorem parseUintL_lt (s : List Char) (n : Nat) (h : parseUintL s = some n) : n < 2 ^ 64 := by
  unfold parseUintL at h
  split at h
  · rename_i hcond
    cases h
    exact hcond.2.2
  · cases h

theorem goTimeParse_inv (ds ms ys cs : List Char) (t : DateTime)
    (h : goTimeParse ds ms ys cs = some t) :
    1 ≤ t.day ∧ t.day ≤ daysInMonth t.month t.year ∧ t.hour ≤ 23 ∧ t.minute ≤ 59 ∧
    1 ≤ t.month ∧ t.month ≤ 12 := by
  unfold goTimeParse at h
  cases hd : dayParse ds with
  | none => rw [hd] at h; simp at h
  | some d =>
    rw [hd] at h
    cases hm : monthLookup ms with
    | none => rw [hm] at h; simp at h
    | some m =>
      rw [hm] at h
      cases hy : year2Parse ys with
      | none => rw [hy] at h; simp at h
      | some y =>
        rw [hy] at h
        cases hc : clockParse cs with
        | none => rw [hc] at h; simp at h
        | some p =>
          obtain ⟨hr, mi⟩ := p
          rw [hc] at h
          simp only at h
          split at h
          · rename_i hg
            cases h
            obtain ⟨g1, g2, g3, g4⟩ := hg
            have := monthLookup_bounds ms m hm
            exact ⟨g1, g2, g3, g4, this.1, this.2⟩
          · cases h

theorem parseListLine_cons (nowYear : Nat) (line : String)
    (f0 f1 f2 f3 f4 f5 f6 f7 f8 : List Char) (rest : List (List Char))
    (hfl : goFields line.data = f0 :: f1 :: f2 :: f3 :: f4 :: f5 :: f6 :: f7 :: f8 :: rest) :
    parseListLine nowYear line = parseFieldsAux nowYear f0 f4 f5 f6 f7 (f8 :: rest) := by
  unfold parseListLine
  rw [hfl]

theorem goFields_detailed
    (mode one user group sz mon dayF clock : List Char) (nm : List (List Char)) (k j : Nat)
    (hmode : Word mode) (hone : Word one) (huser : Word user) (hgroup : Word group)
    (hsz : Word sz) (hmon : Word mon) (hday : Word dayF) (hclock : Word clock)
    (hnm : ∀ w ∈ nm, Word w) :
    goFields (mode ++ '\t' :: (one ++ ' ' :: (user ++ '\t' :: (group ++ '\t' ::
      (List.replicate k ' ' ++ (sz ++ ' ' :: (mon ++ ' ' :: (List.replicate j ' ' ++
      (dayF ++ ' ' :: (clock ++ ' ' :: (intercalateSpace nm ++ ['\r', '\n']))))))))))) =
      mode :: one :: user :: group :: sz :: mon :: dayF :: clock :: nm := by
  unfold goFields
  rw [fieldsStep mode hmode '\t' rfl]
  rw [fieldsStep one hone ' ' rfl]
  rw [fieldsStep user huser '\t' rfl]
  rw [fieldsStep group hgroup '\t' rfl]
  rw [fieldsCore_rep]
  rw [fieldsStep sz hsz ' ' rfl]
  rw [fieldsStep mon hmon ' ' rfl]
  rw [fieldsCore_rep]
  rw [fieldsStep dayF hday ' ' rfl]
  rw [fieldsStep clock hclock ' ' rfl]
  rw [fieldsCore_join nm hnm '\r' rfl ['\n']]
  have hnl : fieldsCore ['\n'] [] = ([] : List (List Char)) := rfl
  rw [hnl, List.append_nil]

theorem digitChar_isDigit_all (n : Nat) : (digitChar n).isDigit = true := by
  unfold digitChar
  split <;> rfl

theorem digit_not_space (c : Char) (hc : c.isDigit = true) : isSpaceChar c = false := by
  have h1 : c ≠ ' ' := fun h => by subst h; exact absurd hc (by decide)
  have h2 : c ≠ '\t' := fun h => by subst h; exact absurd hc (by decide)
  have h3 : c ≠ '\n' := fun h => by subst h; exact absurd hc (by decide)
  have h4 : c ≠ '\r' := fun h => by subst h; exact absurd hc (by decide)
  have h5 : c ≠ '\x0b' := fun h => by subst h; exact absurd hc (by decide)
  have h6 : c ≠ '\x0c' := fun h => by subst h; exact absurd hc (by decide)
  simp [isSpaceChar, h1, h2, h3, h4, h5, h6]

theorem natChars_word (n : Nat) : Word (natChars n) := by
  refine ⟨natChars_ne_nil n, fun c hc => ?_⟩
  have hall := natChars_all_digits n
  rw [List.all_eq_true] at hall
  exact digit_not_space c (hall c hc)

theorem clock_word (h m : Nat) : Word (pad2 h ++ ':' :: pad2 m) := by
  refine ⟨by simp [pad2], fun c hc => ?_⟩
  simp only [pad2, List.mem_append, List.mem_cons, List.mem_singleton,
    List.not_mem_nil, or_false] at hc
  rcases hc with (h1 | h1) | h1 | (h1 | h1) <;> subst h1
  · exact digit_not_space _ (digitChar_isDigit_all _)
  · exact digit_not_space _ (digitChar_isDigit_all _)
  · rfl
  · exact digit_not_space _ (digitChar_isDigit_all _)
  · exact digit_not_space _ (digitChar_isDigit_all _)

theorem mode_word (ty : EntryType) : Word (modeStringOfType ty).data := by
  cases ty <;> exact ⟨by decide, by decide⟩

theorem month_word (m : Nat) (h1 : 1 ≤ m) (h2 : m ≤ 12) : Word (monthAbbrev m) := by
  interval_cases m <;> exact ⟨by decide, by decide⟩

theorem parse_formatted (nowYear : Nat) (ty : EntryType) (size : Nat) (t : DateTime)
    (ws : List (List Char)) (hws : ∀ w ∈ ws, Word w) (hne : ws ≠ [])
    (hsz0 : ty = EntryType.file ∨ size = 0) (hszlt : size < 2 ^ 64)
    (hm1 : 1 ≤ t.month) (hm2 : t.month ≤ 12)
    (hd1 : 1 ≤ t.day) (hdm : t.day ≤ daysInMonth t.month nowYear)
    (hh : t.hour ≤ 23) (hmi : t.minute ≤ 59)
    (hy1 : 1969 ≤ nowYear) (hy2 : nowYear ≤ 2068) :
    parseListLine nowYear (formatEntryLine ⟨String.mk (intercalateSpace ws), ty, size, t⟩) =
      .ok ⟨String.mk (intercalateSpace ws), ty, size, { t with year := nowYear }⟩ := by
  obtain ⟨y0, mo, d, hr, mi⟩ := t
  dsimp only at hm1 hm2 hd1 hdm hh hmi ⊢
  obtain ⟨w0, wrest, rfl⟩ : ∃ a lt, ws = a :: lt := by
    cases ws with
    | nil => exact absurd rfl hne
    | cons a lt => exact ⟨a, lt, rfl⟩
  have hday31 : d ≤ 31 := le_trans hdm (daysInMonth_le31 mo nowYear)
  have hlen4 : (natChars nowYear).length = 4 := by
    rw [natChars_four nowYear (by omega) (by omega)]
    rfl
  have hgtp : goTimeParse (natChars d) (monthAbbrev mo)
      (((natChars nowYear).drop 2).take 2) (pad2 hr ++ ':' :: pad2 mi) =
      some ⟨nowYear, mo, d, hr, mi⟩ := by
    unfold goTimeParse
    rw [dayParse_natChars d hday31, monthLookup_monthAbbrev mo hm1 hm2,
      year2_slice_roundtrip nowYear hy1 hy2, clockParse_pad2 hr mi hh hmi]
    show (if 1 ≤ d ∧ d ≤ daysInMonth mo nowYear ∧ hr ≤ 23 ∧ mi ≤ 59 then
      some (⟨nowYear, mo, d, hr, mi⟩ : DateTime) else none) = some ⟨nowYear, mo, d, hr, mi⟩
    rw [if_pos ⟨hd1, hdm, hh, hmi⟩]
  have hfields : goFields (formatEntryLine
      ⟨String.mk (intercalateSpace (w0 :: wrest)), ty, size, ⟨y0, mo, d, hr, mi⟩⟩).data =
      (modeStringOfType ty).data :: ['1'] :: "user".data :: "group".data ::
        natChars size :: monthAbbrev mo :: natChars d ::
        (pad2 hr ++ ':' :: pad2 mi) :: (w0 :: wrest) := by
    have hshape : (formatEntryLine
        ⟨String.mk (intercalateSpace (w0 :: wrest)), ty, size, ⟨y0, mo, d, hr, mi⟩⟩).data =
        (modeStringOfType ty).data ++ '\t' :: (['1'] ++ ' ' :: ("user".data ++ '\t' ::
          ("group".data ++ '\t' :: (List.replicate (8 - (natChars size).length) ' ' ++
          (natChars size ++ ' ' :: (monthAbbrev mo ++ ' ' ::
          (List.replicate (if d < 10 then 1 else 0) ' ' ++ (natChars d ++ ' ' ::
          ((pad2 hr ++ ':' :: pad2 mi) ++ ' ' ::
          (intercalateSpace (w0 :: wrest) ++ ['\r', '\n'])))))))))) := by
      by_cases hd10 : d < 10
      · rw [if_pos hd10, natChars_lt10 d hd10]
        simp only [formatEntryLine, detailedLine, entryToItem, fmtTime, fmtDay, pad8,
          if_pos hd10, List.append_assoc, List.cons_append, List.nil_append,
          List.replicate, natChars_lt10 d hd10]
      · rw [if_neg hd10]
        simp only [formatEntryLine, detailedLine, entryToItem, fmtTime, fmtDay, pad8,
          if_neg hd10, List.append_assoc, List.cons_append, List.nil_append,
          List.replicate]
    rw [hshape]
    exact goFields_detailed _ _ _ _ _ _ _ _ _ _ _ (mode_word ty) ⟨by decide, by decide⟩
      ⟨by decide, by decide⟩ ⟨by decide, by decide⟩ (natChars_word size)
      (month_word mo hm1 hm2) (natChars_word d) (clock_word hr mi) hws
  rw [parseListLine_cons nowYear _ _ _ _ _ _ _ _ _ _ _ hfields]
  have hcont := contains_colon_clock hr mi
  cases ty with
  | file =>
    simp only [show (modeStringOfType EntryType.file).data = '-' :: "rw-rw-rw-".data from rfl,
      parseFieldsAux, sizeStep, timeStep, show typeOfChar '-' = some EntryType.file from rfl,
      parseUintL_natChars size hszlt, hcont, hlen4, hgtp]
    simp
  | folder =>
    have hsz0' : size = 0 := by
      rcases hsz0 with h | h
      · exact absurd h (by decide)
      · exact h
    subst hsz0'
    simp only [show (modeStringOfType EntryType.folder).data = 'd' :: "rwxrwxrwx".data from rfl,
      parseFieldsAux, sizeStep, timeStep, show typeOfChar 'd' = some EntryType.folder from rfl,
      hcont, hlen4, hgtp]
    simp
  | link =>
    have hsz0' : size = 0 := by
      rcases hsz0 with h | h
      · exact absurd h (by decide)
      · exact h
    subst hsz0'
    simp only [show (modeStringOfType EntryType.link).data = 'l' :: "rwxrwxrwx".data from rfl,
      parseFieldsAux, sizeStep, timeStep, show typeOfChar 'l' = some EntryType.link from rfl,
      hcont, hlen4, hgtp]
    simp

theorem sizeStep_inv (ty : EntryType) (f4 : List Char) (size : Nat)
    (h : sizeStep ty f4 = .ok size) :
    (ty = EntryType.file → size < 2 ^ 64) ∧ (ty ≠ EntryType.file → size = 0) := by
  cases ty with
  | file =>
    refine ⟨fun _ => ?_, fun hne => absurd rfl hne⟩
    unfold sizeStep at h
    cases hpu : parseUintL f4 with
    | none => rw [hpu] at h; exact Outcome.noConfusion h
    | some n =>
      rw [hpu] at h
      injection h with h2
      subst h2
      exact parseUintL_lt f4 _ hpu
  | folder =>
    refine ⟨fun hf => absurd hf (by decide), fun _ => ?_⟩
    unfold sizeStep at h
    injection h with h2
    exact h2.symm
  | link =>
    refine ⟨fun hf => absurd hf (by decide), fun _ => ?_⟩
    unfold sizeStep at h
    injection h with h2
    exact h2.symm

theorem timeStep_inv (nowYear : Nat) (f5 f6 f7 : List Char) (t : DateTime)
    (h : timeStep nowYear f5 f6 f7 = .ok t) :
    1 ≤ t.day ∧ t.day ≤ daysInMonth t.month t.year ∧ t.hour ≤ 23 ∧ t.minute ≤ 59 ∧
    1 ≤ t.month ∧ t.month ≤ 12 := by
  unfold timeStep at h
  by_cases hcol : f7.contains ':' = true
  · rw [if_pos hcol] at h
    by_cases hl : (natChars nowYear).length < 4
    · rw [if_pos hl] at h
      exact Outcome.noConfusion h
    · rw [if_neg hl] at h
      cases hg : goTimeParse f6 f5 (((natChars nowYear).drop 2).take 2) f7 with
      | none => rw [hg] at h; exact Outcome.noConfusion h
      | some t2 =>
        rw [hg] at h
        injection h with h2
        subst h2
        exact goTimeParse_inv _ _ _ _ _ hg
  · rw [if_neg hcol] at h
    by_cases hl : f7.length < 4
    · rw [if_pos hl] at h
      exact Outcome.noConfusion h
    · rw [if_neg hl] at h
      cases hg : goTimeParse f6 f5 ((f7.drop 2).take 2) "00:00".data with
      | none => rw [hg] at h; exact Outcome.noConfusion h
      | some t2 =>
        rw [hg] at h
        injection h with h2
        subst h2
        exact goTimeParse_inv _ _ _ _ _ hg

theorem parseListLine_ok_inv (nowYear : Nat) (line : String) (e : Entry)
    (h : parseListLine nowYear line = .ok e) :
    (e.type = EntryType.file → e.size < 2 ^ 64) ∧
    (e.type ≠ EntryType.file → e.size = 0) ∧
    1 ≤ e.time.month ∧ e.time.month ≤ 12 ∧
    1 ≤ e.time.day ∧ e.time.day ≤ daysInMonth e.time.month e.time.year ∧
    e.time.hour ≤ 23 ∧ e.time.minute ≤ 59 ∧
    ∃ ws, ws ≠ [] ∧ (∀ w ∈ ws, Word w) ∧ e.name = String.mk (intercalateSpace ws) := by
  have hW : ∀ w ∈ goFields line.data, Word w :=
    fun w hw => goFields_word line.data [] (by simp) w hw
  unfold parseListLine at h
  generalize hfl : goFields line.data = fl at h hW
  rcases fl with _ | ⟨f0, fl⟩
  · exact Outcome.noConfusion h
  rcases fl with _ | ⟨f1, fl⟩
  · exact Outcome.noConfusion h
  rcases fl with _ | ⟨f2, fl⟩
  · exact Outcome.noConfusion h
  rcases fl with _ | ⟨f3, fl⟩
  · exact Outcome.noConfusion h
  rcases fl with _ | ⟨f4, fl⟩
  · exact Outcome.noConfusion h
  rcases fl with _ | ⟨f5, fl⟩
  · exact Outcome.noConfusion h
  rcases fl with _ | ⟨f6, fl⟩
  · exact Outcome.noConfusion h
  rcases fl with _ | ⟨f7, fl⟩
  · exact Outcome.noConfusion h
  rcases fl with _ | ⟨f8, rest⟩
  · exact Outcome.noConfusion h
  replace h : parseFieldsAux nowYear f0 f4 f5 f6 f7 (f8 :: rest) = .ok e := h
  rcases f0 with _ | ⟨c, f0t⟩
  · exact Outcome.noConfusion h
  simp only [parseFieldsAux] at h
  rcases hty : typeOfChar c with _ | ty
  · simp only [hty] at h
    exact Outcome.noConfusion h
  · simp only [hty] at h
    rcases hsz : sizeStep ty f4 with _ | msg | size
    · simp only [hsz] at h
      exact Outcome.noConfusion h
    · simp only [hsz] at h
      exact Outcome.noConfusion h
    · simp only [hsz] at h
      rcases ht : timeStep nowYear f5 f6 f7 with _ | msg | t
      · simp only [ht] at h
        exact Outcome.noConfusion h
      · simp only [ht] at h
        exact Outcome.noConfusion h
      · simp only [ht] at h
        injection h with h2
        subst h2
        obtain ⟨hs1, hs2⟩ := sizeStep_inv ty f4 size hsz
        have htb := timeStep_inv nowYear f5 f6 f7 t ht
        refine ⟨hs1, hs2, htb.2.2.2.2.1, htb.2.2.2.2.2, htb.1, htb.2.1, htb.2.2.1,
          htb.2.2.2.1, f8 :: rest, by simp, ?_, rfl⟩
        intro w hw
        refine hW w ?_
        simp only [List.mem_cons] at hw ⊢
        tauto

/-- C1: the spec claims every CWD whose resolved path is not an existing
directory leaves the working path unchanged and answers file-unavailable.
This holds for an existing non-directory, but for a path that does not
exist `os.Stat` returns a nil `FileInfo` together with the error, and
`f.IsDir() && err == nil` evaluates `f.IsDir()` first, dereferencing nil —
the session panics and no reply is sent.  (A successful CWD is included to
show the embedding does change directories.) -/
theorem cwd_missing_path_crashes_instead_of_file_unavailable :
    serveStep extNone fsDemo sessDemo "CWD nope" = .crash ∧
    serveStep extNone fsDemo sessDemo "CWD f.txt" =
      .ok (fsDemo, sessDemo, [(StatusFileUnavailable, Message StatusFileUnavailable)]) ∧
    serveStep extNone fsDemo sessDemo "CWD sub" =
      .ok (fsDemo, { sessDemo with pfx := "root/sub" },
        [(StatusRequestedFileActionOK, "Directory changed to root/sub")]) :=
  ⟨by decide, by decide, by decide⟩

/-- C2: the spec claims that when extended-passive and legacy passive
negotiation both fail the operation fails with the negotiation error and no
data connection is dialed.  In the code both errors are discarded (the
inner `if` body is empty) and `net.DialTimeout` is still invoked, with the
port left at `0`. -/
theorem openDataConn_dials_after_double_negotiation_failure :
    epsv (.error "unexpected code 500") = .err "unexpected code 500" ∧
    pasv (.error "unexpected code 500") = .err "unexpected code 500" ∧
    openDataConn "192.0.2.7" (.error "unexpected code 500") (.error "unexpected code 500") =
      .dialed "192.0.2.7" 0 ∧
    epsv (.ok "229 mangled reply") = .err "invalid EPSV response format" ∧
    pasv (.ok "227 mangled reply") = .err "invalid PASV response format" ∧
    openDataConn "192.0.2.7" (.ok "229 mangled reply") (.ok "227 mangled reply") =
      .dialed "192.0.2.7" 0 :=
  ⟨rfl, rfl, rfl, by decide, by decide, by decide⟩

/-- C3: the spec claims that a colon-free field 7 is treated as a possibly
two-digit year and that any date-parse failure merely fails the line, the
parser being total.  The code slices `fields[7][2:4]`, which panics when
field 7 is shorter than four bytes — exactly the two-digit-year case; a
four-digit year is handled (via its last two digits). -/
theorem parseListLine_two_digit_year_crashes :
    parseListLine 2026 "-rw-rw-rw- 1 user group 100 Jan 1 99 file.txt" = .crash ∧
    parseListLine 2026 "-rw-rw-rw- 1 user group 100 Jan 1 2019 file.txt" =
      .ok { name := "file.txt", type := .file, size := 100, time := ⟨2019, 1, 1, 0, 0⟩ } :=
  ⟨by decide, by decide⟩

/-- C4: the PASV parser takes only the last two comma-separated numbers and
decodes `high*256 + low` (65203 on the spec's example, regardless of the
first four numbers), and missing parentheses do fail with the format
error — but a reply with fewer than two comma-separated fields panics at
`lst[n-2]` instead of failing with a format error. -/
theorem pasv_decodes_last_two_fields_but_crashes_on_too_few :
    pasv (.ok "227 Entering Passive Mode (172,17,66,241,254,179)") = .ok 65203 ∧
    pasv (.ok "227 Entering Passive Mode (9,9,9,9,254,179)") = .ok 65203 ∧
    pasv (.ok "227 missing delimiters") = .err "invalid PASV response format" ∧
    pasv (.ok "227 Entering Passive Mode ()") = .crash :=
  ⟨by decide, by decide, by decide, by decide⟩

/-- C8: when the dial fails, `Connect` still calls the cleanup method
`Quit` on the nil connection object, and that call dereferences nil — the
whole connect-with-login helper panics instead of returning the dial
error. -/
theorem Connect_calls_Quit_on_nil_after_failed_dial :
    (∀ (e : String) (login : CConn → Except String Unit),
      Connect (.error e) login = .crash) ∧
    quitCall none = .crash :=
  ⟨fun _ _ => rfl, rfl⟩

/-- C9: on an empty item set both listing formatters return the fixed
two-line `null` body; its lines parse as directory entries named `.` and
`..` with size zero and the fixed placeholder timestamp April 1, 00:00 (of
the parser's current year). -/
theorem empty_listing_yields_dot_and_dotdot :
    ListDetailed [] = nullListing ∧ ListShort [] = nullListing ∧
    nullListing = "drwxrwxrwx 1 user group 0 Apr  1 00:00 .\r\n" ++
      "drwxrwxrwx 1 user group 0 Apr  1 00:00 ..\r\n" ∧
    parseListLine 2026 "drwxrwxrwx 1 user group 0 Apr  1 00:00 .\r\n" =
      .ok { name := ".", type := .folder, size := 0, time := ⟨2026, 4, 1, 0, 0⟩ } ∧
    parseListLine 2026 "drwxrwxrwx 1 user group 0 Apr  1 00:00 ..\r\n" =
      .ok { name := "..", type := .folder, size := 0, time := ⟨2026, 4, 1, 0, 0⟩ } :=
  ⟨rfl, rfl, by decide, by decide, by decide⟩

/-- C5 counterexample: a PASV sets the data channel and one LIST consumes
it, but afterwards the channel — although closed — is still referenced by
the `dataConn` field: the claim that the consuming transfer clears the
field is false on this concrete run. -/
theorem dataConn_not_cleared_after_transfer :
    serveStep extPasv fsDemo sessDemo "PASV" =
      .ok (fsDemo, sessOpen, [(227, "Entering Passive Mode (127,0,0,1,7,208)")]) ∧
    serveStep extPasv fsDemo sessOpen "LIST" =
      .ok (fsDemo, { sessOpen with dataConn := some ⟨false⟩ },
        [(150, "Opening ASCII mode data connection for file list"),
         (226, "Closing data connection, sent 85 bytes.")]) ∧
    ({ sessOpen with dataConn := some ⟨false⟩ } : SSess).dataConn ≠ none :=
  ⟨by decide, by decide, by decide⟩

/-- C5 amended: no transfer command clears the `dataConn` field — after
LIST, and after a RETR whose path is a readable file, the channel has been
closed while `dataConn` still references the closed channel; a failing
RETR replies file-unavailable with the session (channel included) entirely
untouched; after STOR the session is likewise entirely unchanged (the
channel neither closed nor cleared); only closing the whole session clears
the field. -/
theorem transfer_closes_but_never_clears_dataConn (ext : StepExt) (fs : FS) (s : SSess)
    (dc : DChan) (h : s.dataConn = some dc) :
    (∃ rs, serveStep ext fs s "LIST" = .ok (fs, { s with dataConn := some ⟨false⟩ }, rs)) ∧
    (∀ p f, statFS fs (parsingPath s.pfx [p]) = some f → f.isDir = false →
      ∃ rs, dispatch ext fs s ["RETR", p] =
        .ok (fs, { s with dataConn := some ⟨false⟩ }, rs)) ∧
    (∀ p, statFS fs (parsingPath s.pfx [p]) = none →
      dispatch ext fs s ["RETR", p] =
        .ok (fs, s, [(StatusFileUnavailable, "read error")])) ∧
    (∃ fs' rs, dispatch ext fs s ["STOR", "f"] = .ok (fs', s, rs)) ∧
    (closeConn s).dataConn = none := by
  obtain ⟨pfx, rn, host, dcon⟩ := s
  cases dcon with
  | none => exact Option.noConfusion h
  | some dcx =>
    have key : ∀ q, dispatch ext fs ⟨pfx, rn, host, some dcx⟩ ["RETR", q] =
        (match statFS fs (parsingPath pfx [q]) with
         | none =>
           Outcome.ok (fs, (⟨pfx, rn, host, some dcx⟩ : SSess),
             [(StatusFileUnavailable, "read error")])
         | some f =>
           if f.isDir then
             Outcome.ok (fs, (⟨pfx, rn, host, some dcx⟩ : SSess),
               [(StatusFileUnavailable, "read error")])
           else
             Outcome.ok (fs, (⟨pfx, rn, host, some ⟨false⟩⟩ : SSess),
               (150, "Data transfer starting " ++ natStr f.content.length ++ "bytes") ::
                 [(StatusClosingDataConnection, "Closing data connection, sent " ++
                   natStr (if dcx.isOpen then f.content.length else 0) ++ " bytes.")])) :=
      fun _ => rfl
    refine ⟨⟨_, rfl⟩, ?_, ?_, ⟨_, _, rfl⟩, rfl⟩
    · intro p f hstat hdir
      rw [key p]
      simp only [hstat, hdir, Bool.false_eq_true, if_false]
      exact ⟨_, rfl⟩
    · intro p hstat
      rw [key p]
      simp only [hstat]

/-- Witness for `transfer_closes_but_never_clears_dataConn`, at a concrete
session holding an open data channel. -/
theorem transfer_closes_but_never_clears_dataConn_witness :
    sessOpen.dataConn = some ⟨true⟩ ∧
    ((∃ rs, serveStep extNone fsDemo sessOpen "LIST" =
        .ok (fsDemo, { sessOpen with dataConn := some ⟨false⟩ }, rs)) ∧
     (∀ p f, statFS fsDemo (parsingPath sessOpen.pfx [p]) = some f → f.isDir = false →
       ∃ rs, dispatch extNone fsDemo sessOpen ["RETR", p] =
         .ok (fsDemo, { sessOpen with dataConn := some ⟨false⟩ }, rs)) ∧
     (∀ p, statFS fsDemo (parsingPath sessOpen.pfx [p]) = none →
       dispatch extNone fsDemo sessOpen ["RETR", p] =
         .ok (fsDemo, sessOpen, [(StatusFileUnavailable, "read error")])) ∧
     (∃ fs' rs, dispatch extNone fsDemo sessOpen ["STOR", "f"] = .ok (fs', sessOpen, rs)) ∧
     (closeConn sessOpen).dataConn = none) :=
  ⟨rfl, transfer_closes_but_never_clears_dataConn extNone fsDemo sessOpen ⟨true⟩ rfl⟩

/-- C6 counterexample: `rn` (`renamePendingSource`) is not cleared by the
rename-target command: after a successful RNFR/RNTO pair — and equally
after a failing RNTO — the field still holds the resolved source path,
contradicting the claim that RNTO clears it regardless of outcome. -/
theorem rn_not_cleared_after_rnto :
    serveStep extNone fsDemo sessDemo "RNFR sub" =
      .ok (fsDemo, { sessDemo with rn := "root/sub" },
        [(StatusRequestFilePending, Message StatusRequestFilePending)]) ∧
    serveStep extNone fsDemo { sessDemo with rn := "root/sub" } "RNTO sub2" =
      .ok ([("root/sub2", ⟨true, 0, ""⟩), ("root/f.txt", ⟨false, 3, "abc"⟩)],
        { sessDemo with rn := "root/sub" },
        [(StatusRequestedFileActionOK, "File renamed.")]) ∧
    serveStep extNone fsDemo { sessDemo with rn := "root/ghost" } "RNTO sub2" =
      .ok (fsDemo, { sessDemo with rn := "root/ghost" },
        [(StatusFileUnavailable, "rename error")]) ∧
    ({ sessDemo with rn := "root/sub" } : SSess).rn ≠ "" :=
  ⟨by decide, by decide, by decide, by decide⟩

/-- C6 amended: the rename-target command never clears
`renamePendingSource`: for every session and argument list, RNTO returns
with the session — `rn` included — unchanged, whether the rename succeeded
or failed, so a further RNTO would reuse the stale source. -/
theorem rnto_leaves_rename_source_unchanged (ext : StepExt) (fs : FS) (s : SSess)
    (rest : List String) :
    ∃ fs' rs, dispatch ext fs s ("RNTO" :: rest) = .ok (fs', s, rs) := by
  have key : dispatch ext fs s ("RNTO" :: rest) =
      (match renameFS fs s.rn (parsingPath s.pfx rest) with
       | none => Outcome.ok (fs, s, [(StatusFileUnavailable, "rename error")])
       | some fs2 => Outcome.ok (fs2, s, [(StatusRequestedFileActionOK, "File renamed.")])) :=
    rfl
  rw [key]
  cases renameFS fs s.rn (parsingPath s.pfx rest) with
  | none => exact ⟨fs, _, rfl⟩
  | some fs2 => exact ⟨fs2, _, rfl⟩

/-- C10: `PassiveConn.Host` returns the constant `"127.0.0.1"` no matter
which host the listener was bound to, so every legacy passive (227) reply
the server emits advertises the quad `127,0,0,1`, only the final two
numbers depending on the negotiated port. -/
theorem passive_host_is_constant_loopback (pc : PassiveConnM) (items : List FileItem)
    (bytes : String) (fs : FS) (s : SSess) :
    pc.Host = "127.0.0.1" ∧
    dispatch ⟨some pc, items, bytes⟩ fs s ["PASV"] =
      .ok (fs, { s with dataConn := some ⟨true⟩ }, [(227, pasvMsg pc)]) ∧
    pasvMsg pc = String.mk ("Entering Passive Mode (127,0,0,1,".data ++
      natChars (pc.Port / 256) ++ ",".data ++ natChars (pc.Port % 256) ++ ")".data) := by
  refine ⟨rfl, rfl, ?_⟩
  have hmod : pc.Port - pc.Port / 256 * 256 = pc.Port % 256 := by omega
  simp only [pasvMsg]
  rw [hmod]
  rfl

/-- C7 counterexample: the round-trip claim as stated is false — the
detailed formatter emits no year, and the re-parse assigns the current
year to every clock-bearing line: a line dated 2019, parsed and formatted
in 2026, re-parses to a Time whose year is 2026, so the modification Time
is not preserved. -/
theorem roundtrip_loses_year :
    ¬ (∀ (nowYear : Nat) (line : String) (e : Entry),
        parseListLine nowYear line = .ok e →
        ∃ e', parseListLine nowYear (formatEntryLine e) = .ok e' ∧
          e'.type = e.type ∧ (e.type = EntryType.file → e'.size = e.size) ∧
          e'.name = e.name ∧ e'.time = e.time) := by
  intro hclaim
  obtain ⟨e', hp, -, -, -, ht⟩ := hclaim 2026 "-rw-rw-rw- 1 user group 100 Jan 1 2019 f"
    { name := "f", type := .file, size := 100, time := ⟨2019, 1, 1, 0, 0⟩ } (by decide)
  have hcomp : parseListLine 2026 (formatEntryLine
      { name := "f", type := .file, size := 100, time := ⟨2019, 1, 1, 0, 0⟩ }) =
      .ok { name := "f", type := .file, size := 100, time := ⟨2026, 1, 1, 0, 0⟩ } := by
    decide
  rw [hcomp] at hp
  injection hp with h2
  subst h2
  exact absurd ht (by decide)

/-- C7 amended: re-parsing the formatted line of any successfully parsed
entry preserves Type, Size and Name exactly, and preserves the Time up to
its year, which is replaced by the parser's current year (the formatter
emits no year and the re-parse takes the clock branch); the Time is
recovered in full precisely when its year already equals the current year.
The day/month hypothesis excludes the one remaining failure: a Feb 29
entry re-parsed against a non-leap current year fails the day-range
check of the date parser. -/
theorem formatted_reparse_changes_only_year (nowYear : Nat) (line : String) (e : Entry)
    (hy1 : 1969 ≤ nowYear) (hy2 : nowYear ≤ 2068)
    (hp : parseListLine nowYear line = .ok e)
    (hdm : e.time.day ≤ daysInMonth e.time.month nowYear) :
    parseListLine nowYear (formatEntryLine e) =
      .ok { e with time := { e.time with year := nowYear } } ∧
    (e.time.year = nowYear → parseListLine nowYear (formatEntryLine e) = .ok e) := by
  obtain ⟨hszf, hszn, hm1, hm2, hd1, hd2, hh, hmi, ws, hne, hwords, hname⟩ :=
    parseListLine_ok_inv nowYear line e hp
  have hsz0 : e.type = EntryType.file ∨ e.size = 0 := by
    by_cases hf : e.type = EntryType.file
    · exact Or.inl hf
    · exact Or.inr (hszn hf)
  have hszlt : e.size < 2 ^ 64 := by
    rcases hsz0 with hf | h0
    · exact hszf hf
    · rw [h0]; norm_num
  obtain ⟨enm, ety, esz, et⟩ := e
  dsimp only at hszf hszn hm1 hm2 hd1 hd2 hh hmi hname hdm hsz0 hszlt ⊢
  subst hname
  have main := parse_formatted nowYear ety esz et ws hwords hne hsz0 hszlt
    hm1 hm2 hd1 hdm hh hmi hy1 hy2
  refine ⟨main, fun hyear => ?_⟩
  obtain ⟨y0, mo, d, hr, mi⟩ := et
  dsimp only at hyear
  subst hyear
  exact main

/-- Witness for `formatted_reparse_changes_only_year` on a concrete line
dated 2019 re-parsed with current year 2026. -/
theorem formatted_reparse_changes_only_year_witness :
    ((1969 : Nat) ≤ 2026 ∧ (2026 : Nat) ≤ 2068 ∧
      parseListLine 2026 "-rw-rw-rw- 1 user group 100 Jan 1 2019 f" = .ok entry2019 ∧
      entry2019.time.day ≤ daysInMonth entry2019.time.month 2026) ∧
    (parseListLine 2026 (formatEntryLine entry2019) =
      .ok { entry2019 with time := { entry2019.time with year := 2026 } } ∧
      (entry2019.time.year = 2026 →
        parseListLine 2026 (formatEntryLine entry2019) = .ok entry2019)) :=
  ⟨⟨by decide, by decide, by decide, by decide⟩,
    formatted_reparse_changes_only_year 2026 "-rw-rw-rw- 1 user group 100 Jan 1 2019 f"
      entry2019 (by decide) (by decide) (by decide) (by decide)⟩

end Ftplib
